import Mathlib

/-!
Shallow embedding of the hook library in `src/src/index.ts` (a collection of
React state-helper hooks: useWindowSize, useMouse, useLocalStorage, useKeyboard,
useToggle, useTimeout, useDelay, useUpdateEffect, useArray).

Browser state (the window, the mouse event, localStorage, the listener table,
the timer slot) is modelled explicitly; React's effect mechanism is modelled by
running each effect body, in hook-declaration order, at the points where React
runs it (on mount, and on re-renders whose dependency array changed), with the
standard dependency comparison against the previous render's dependencies.
-/

/-! ## useToggle (index.ts lines 106-114)

`changeToggle` receives `boolean | null`; `null` is embedded as `none`.
The TS body is `setToggle((prev) => (typeof value === 'boolean' ? value : !prev))`.
-/

def changeToggle (value : Option Bool) (prev : Bool) : Bool :=
  match value with
  | some b => b
  | none => !prev

/-! ## useArray (index.ts lines 193-209)

JS `Array.prototype.slice(start, end)` with the non-negative arguments used by
the source (`0`, `index`, `index + 1`, `prev.length - 1`) yields the elements
of positions `[start, end)`; with `Nat` truncated subtraction, `prev.length - 1`
agrees with the JS value clamped at zero, which is also what JS `slice`
produces on the empty array.
-/

def jsSlice {α : Type} (l : List α) (s e : Nat) : List α :=
  (l.take e).drop s

/-- remove: `[...prev.slice(0, index), ...prev.slice(index + 1, prev.length - 1)]` -/
def arrayRemove {α : Type} (prev : List α) (index : Nat) : List α :=
  jsSlice prev 0 index ++ jsSlice prev (index + 1) (prev.length - 1)

/-- update: `[...prev.slice(0, index), value, ...prev.slice(index + 1, prev.length - 1)]` -/
def arrayUpdate {α : Type} (prev : List α) (index : Nat) (value : α) : List α :=
  jsSlice prev 0 index ++ [value] ++ jsSlice prev (index + 1) (prev.length - 1)

/-- push: `setArray((prev) => [...prev, value])` -/
def arrayPush {α : Type} (prev : List α) (value : α) : List α :=
  prev ++ [value]

/-! ## useLocalStorage (index.ts lines 73-87)

The store is an association list; `lsSetItem` shadows the old binding, which is
exactly `localStorage.setItem`'s overwrite as observed through `getItem`.
-/

def lsLookup : List (String × String) → String → Option String
  | [], _ => none
  | (k, v) :: rest, key => if k = key then some v else lsLookup rest key

def lsSetItem (store : List (String × String)) (key val : String) :
    List (String × String) :=
  (key, val) :: store

/-- The `useState` initializer:
`const local = window.localStorage.getItem(key); return local ? local : initial;`
(a JS string is falsy exactly when it is empty, and `getItem` of a missing key
is `null`, also falsy). -/
def lsInitData (store : List (String × String)) (key initial : String) : String :=
  match lsLookup store key with
  | some stored => if stored = "" then initial else stored
  | none => initial

/-- One mounted `useLocalStorage(key, initial)` hook: its current `key` prop,
its `data` state, the dependency array `[key, data]` stored by the effect at
the previous render, and the backing store. -/
structure LSState where
  key : String
  data : String
  prevDeps : Option (String × String)
  store : List (String × String)

/-- Mounting: the initializer computes `data`, then the effect
`useEffect(() => { window.localStorage.setItem(key, data); }, [key, data])`
runs (effects always run after the first render). -/
def lsMount (store : List (String × String)) (key initial : String) : LSState :=
  let d := lsInitData store key initial
  { key := key, data := d, prevDeps := some (key, d), store := lsSetItem store key d }

/-- A re-render with (possibly new) `key` prop and `data` state: the effect
re-runs exactly when the dependency array `[key, data]` differs from the one
recorded at the previous render, and then writes `data` under `key`. -/
def lsStep (s : LSState) (newKey newData : String) : LSState :=
  if s.prevDeps = some (newKey, newData) then
    { s with key := newKey, data := newData }
  else
    { key := newKey, data := newData, prevDeps := some (newKey, newData),
      store := lsSetItem s.store newKey newData }

def lsRun (store : List (String × String)) (key initial : String)
    (evs : List (String × String)) : LSState :=
  evs.foldl (fun s e => lsStep s e.1 e.2) (lsMount store key initial)

/-! ## Event listeners: useWindowSize / useMouse / useKeyboard
(index.ts lines 12-36, 47-65, 93-99)

The window's listener table is a list of (event type, handler identity) pairs;
`addEventListener` appends, `removeEventListener` removes the registered pair.
Each hook's effect registers one handler and its cleanup removes that same
handler.
-/

def addEventListener (l : List (String × Nat)) (ty : String) (h : Nat) :
    List (String × Nat) :=
  l ++ [(ty, h)]

def removeEventListener (l : List (String × Nat)) (ty : String) (h : Nat) :
    List (String × Nat) :=
  l.erase (ty, h)

def useWindowSizeEffect (l : List (String × Nat)) (h : Nat) : List (String × Nat) :=
  addEventListener l "resize" h

def useWindowSizeCleanup (l : List (String × Nat)) (h : Nat) : List (String × Nat) :=
  removeEventListener l "resize" h

def useMouseEffect (l : List (String × Nat)) (h : Nat) : List (String × Nat) :=
  addEventListener l "mousemove" h

def useMouseCleanup (l : List (String × Nat)) (h : Nat) : List (String × Nat) :=
  removeEventListener l "mousemove" h

def useKeyboardEffect (l : List (String × Nat)) (h : Nat) : List (String × Nat) :=
  addEventListener l "keydown" h

def useKeyboardCleanup (l : List (String × Nat)) (h : Nat) : List (String × Nat) :=
  removeEventListener l "keydown" h

/-! ## useWindowSize / useMouse state updates (index.ts lines 19-24, 54-56) -/

structure BrowserWindow where
  innerWidth : Int
  innerHeight : Int

structure WindowSize where
  width : Int
  height : Int
deriving DecidableEq

structure MouseEventData where
  clientX : Int
  clientY : Int

structure MousePosition where
  x : Int
  y : Int
deriving DecidableEq

/-- `setWindowSize({ width: window.innerWidth, height: window.innerHeight })` -/
def handleWindowResize (w : BrowserWindow) : WindowSize :=
  { width := w.innerWidth, height := w.innerHeight }

/-- The `resize` listener replaces the state, ignoring the previous value. -/
def resizeStep (_prev : WindowSize) (w : BrowserWindow) : WindowSize :=
  handleWindowResize w

/-- `setMousePosition({ x: event.clientX, y: event.clientY })` -/
def handleMouseMovement (e : MouseEventData) : MousePosition :=
  { x := e.clientX, y := e.clientY }

/-- The `mousemove` listener replaces the state, ignoring the previous value. -/
def mouseStep (_prev : MousePosition) (e : MouseEventData) : MousePosition :=
  handleMouseMovement e

/-! ## useTimeout (index.ts lines 122-149)

State of one mounted `useTimeout(callback, delay)` hook together with a clock.
`timer` is the pending `setTimeout`: `some t` means a timeout scheduled to
fire at absolute time `t`; `fired` counts executions of the callback.
`set` schedules `callbackRef.current` after `delay`; `clear` cancels the
pending timeout (`timeoutRef.current && clearTimeout(timeoutRef.current)`);
`reset` is `clear(); set();`. The hook's effect (deps `[delay, set, clear]`)
calls `set` and returns `clear` as its cleanup; `set` and `clear` are
`useCallback`-memoized, so the effect re-runs only when `delay` changes.
-/

structure TimeoutState where
  now : Nat
  delay : Nat
  timer : Option Nat
  fired : Nat
deriving DecidableEq

def tSet (s : TimeoutState) : TimeoutState :=
  { s with timer := some (s.now + s.delay) }

def tClear (s : TimeoutState) : TimeoutState :=
  { s with timer := none }

def tReset (s : TimeoutState) : TimeoutState :=
  tSet (tClear s)

/-- Time advances by `n`; a pending timeout whose scheduled time is reached
fires the callback once and is consumed (a `setTimeout` fires at most once). -/
def tElapse (s : TimeoutState) (n : Nat) : TimeoutState :=
  let now := s.now + n
  match s.timer with
  | some t =>
      if t ≤ now then { s with now := now, timer := none, fired := s.fired + 1 }
      else { s with now := now }
  | none => { s with now := now }

inductive TEvent where
  | elapse (n : Nat)
  | callClear
  | callReset
  | changeDelay (d : Nat)
  | unmount
deriving DecidableEq

/-- `elapse` is the clock; `callClear`/`callReset` are the returned functions;
`changeDelay d` is a re-render with a new `delay` prop, which re-runs the
effect: first the previous effect's cleanup (`clear`), then `set` with the new
delay; `unmount` runs the effect's cleanup (`clear`). -/
def tStep (s : TimeoutState) : TEvent → TimeoutState
  | .elapse n => tElapse s n
  | .callClear => tClear s
  | .callReset => tReset s
  | .changeDelay d => tSet { tClear s with delay := d }
  | .unmount => tClear s

/-- Mounting `useTimeout(callback, delay)` at time 0: the effect runs `set()`. -/
def tMount (delay : Nat) : TimeoutState :=
  tSet { now := 0, delay := delay, timer := none, fired := 0 }

def tRun (s : TimeoutState) (evs : List TEvent) : TimeoutState :=
  evs.foldl tStep s

/-- Events that do not re-set the timeout (no `reset` call, no delay change). -/
def tNoReset (evs : List TEvent) : Bool :=
  evs.all fun e =>
    match e with
    | .callReset => false
    | .changeDelay _ => false
    | _ => true

/-! ## useDelay (index.ts lines 157-161)

`useDelay(callback, delay, dependencies)` calls `useTimeout(callback, delay)`
and adds `useEffect(reset, [...dependencies, reset])` and
`useEffect(clear, [])`. Effects run in hook-declaration order, so on mount the
sequence is: useTimeout's effect (`set`), then `reset` (= `clear; set`), then
`clear`. `reset` is `useCallback`-stable, so the `reset` effect re-runs exactly
when `dependencies` change; the `clear` effect never re-runs; `reset()` and
`clear()` return `undefined`, so those two effects have no cleanup. On unmount
the only cleanup is useTimeout's (`clear`). Dependencies are embedded as
`List Nat`, compared pointwise as React does. -/

structure DelayState where
  ts : TimeoutState
  prevDeps : Option (List Nat)
deriving DecidableEq

def dMount (delay : Nat) (deps : List Nat) : DelayState :=
  let s0 : TimeoutState := { now := 0, delay := delay, timer := none, fired := 0 }
  { ts := tClear (tReset (tSet s0)), prevDeps := some deps }

inductive DEvent where
  | render (deps : List Nat)
  | elapse (n : Nat)
  | unmount
deriving DecidableEq

def dStep (s : DelayState) : DEvent → DelayState
  | .render deps =>
      if s.prevDeps = some deps then { s with prevDeps := some deps }
      else { ts := tReset s.ts, prevDeps := some deps }
  | .elapse n => { s with ts := tElapse s.ts n }
  | .unmount => { s with ts := tClear s.ts }

def dRun (s : DelayState) (evs : List DEvent) : DelayState :=
  evs.foldl dStep s

/-- Events in which the dependencies never change from `deps`. -/
def dNoChange (deps : List Nat) (evs : List DEvent) : Bool :=
  evs.all fun e =>
    match e with
    | .render d => decide (d = deps)
    | _ => true

/-! ## useUpdateEffect (index.ts lines 168-179)

`isFirstRender` is the ref; `calls` counts executions of the callback. The
effect body runs whenever React's dependency comparison reports a change
(always on the first render, since there are no previous deps); on its first
run it only flips the ref. React records the dependency array every render. -/

structure UpdateState where
  isFirstRender : Bool
  prevDeps : Option (List Nat)
  calls : Nat
deriving DecidableEq

def uInit : UpdateState :=
  { isFirstRender := true, prevDeps := none, calls := 0 }

def uStep (s : UpdateState) (deps : List Nat) : UpdateState :=
  if s.prevDeps = some deps then
    { s with prevDeps := some deps }
  else if s.isFirstRender then
    { isFirstRender := false, prevDeps := some deps, calls := s.calls }
  else
    { s with prevDeps := some deps, calls := s.calls + 1 }

def uRun (renders : List (List Nat)) : UpdateState :=
  renders.foldl uStep uInit

/-- Number of positions in a render sequence whose dependency array differs
from the previous render's. -/
def countChanges : List (List Nat) → Nat
  | [] => 0
  | [_] => 0
  | a :: b :: rest => (if a = b then 0 else 1) + countChanges (b :: rest)

/-! ## The helper inventory (whole of index.ts)

One record per exported helper function, with its first and last source line
in `src/src/index.ts` and the list of other helpers of this library that its
body calls. -/

structure HelperDecl where
  name : String
  firstLine : Nat
  lastLine : Nat
  callsHelpers : List String
deriving DecidableEq

def HelperDecl.lineCount (h : HelperDecl) : Nat :=
  h.lastLine - h.firstLine + 1

def helpers : List HelperDecl :=
  [ { name := "useWindowSize", firstLine := 12, lastLine := 36, callsHelpers := [] },
    { name := "useMouse", firstLine := 47, lastLine := 65, callsHelpers := [] },
    { name := "useLocalStorage", firstLine := 73, lastLine := 87, callsHelpers := [] },
    { name := "useKeyboard", firstLine := 93, lastLine := 99, callsHelpers := [] },
    { name := "useToggle", firstLine := 106, lastLine := 114, callsHelpers := [] },
    { name := "useTimeout", firstLine := 122, lastLine := 149, callsHelpers := [] },
    { name := "useDelay", firstLine := 157, lastLine := 161, callsHelpers := ["useTimeout"] },
    { name := "useUpdateEffect", firstLine := 168, lastLine := 179, callsHelpers := [] },
    { name := "useArray", firstLine := 193, lastLine := 209, callsHelpers := [] } ]

/-- Invariant of a mounted `useLocalStorage` hook after its effects have run:
the effect recorded the current `[key, data]`, and the store holds the current
state under the current key. -/
def lsInv (s : LSState) : Prop :=
  s.prevDeps = some (s.key, s.data) ∧ lsLookup s.store s.key = some s.data

/-! ## Helper lemmas -/

theorem jsSlice_zero {α : Type} (l : List α) (e : Nat) :
    jsSlice l 0 e = l.take e := by
  unfold jsSlice
  rw [List.drop_zero]

theorem jsSlice_tail {α : Type} (l : List α) (i : Nat) (h : i + 1 < l.length) :
    jsSlice l (i + 1) (l.length - 1) = (l.drop (i + 1)).take (l.length - 2 - i) := by
  unfold jsSlice
  rw [List.drop_take]
  congr 1
  omega

theorem arrayRemove_eq {α : Type} (l : List α) (i : Nat) (h : i + 1 < l.length) :
    arrayRemove l i = (l.eraseIdx i).dropLast := by
  have hlen : (l.take i).length = i := by
    rw [List.length_take]; omega
  have hE : (l.eraseIdx i).dropLast =
      l.take i ++ (l.drop (i + 1)).take (l.length - 2 - i) := by
    rw [List.eraseIdx_eq_take_drop_succ, List.dropLast_eq_take, List.length_append,
      hlen, List.length_drop, List.take_append_eq_append_take, hlen, List.take_take]
    have h1 : (i + (l.length - (i + 1)) - 1) ⊓ i = i := by omega
    have h2 : i + (l.length - (i + 1)) - 1 - i = l.length - 2 - i := by omega
    rw [h1, h2]
  rw [arrayRemove, jsSlice_zero, jsSlice_tail l i h, hE]

theorem arrayUpdate_eq {α : Type} (l : List α) (i : Nat) (v : α)
    (h : i + 1 < l.length) :
    arrayUpdate l i v = (l.set i v).dropLast := by
  have hlen : (l.take i).length = i := by
    rw [List.length_take]; omega
  have hset : l.set i v = l.take i ++ v :: l.drop (i + 1) := by
    rw [List.set_eq_take_append_cons_drop, if_pos (show i < l.length by omega)]
  have hC : (l.set i v).dropLast =
      l.take i ++ v :: (l.drop (i + 1)).take (l.length - 2 - i) := by
    rw [List.dropLast_eq_take, List.length_set, hset,
      List.take_append_eq_append_take, hlen, List.take_take]
    have h1 : (l.length - 1) ⊓ i = i := by omega
    rw [h1]
    have h2 : l.length - 1 - i = (l.length - 2 - i) + 1 := by omega
    rw [h2, List.take_succ_cons]
  rw [arrayUpdate, jsSlice_zero, jsSlice_tail l i h, hC, List.append_assoc]
  rfl

theorem cleanup_removes_added (l : List (String × Nat)) (ty : String) (h : Nat)
    (hmem : (ty, h) ∉ l) :
    removeEventListener (addEventListener l ty h) ty h = l := by
  unfold removeEventListener addEventListener
  rw [List.erase_append_right _ hmem, List.erase_cons_head, List.append_nil]

theorem lsMount_inv (store : List (String × String)) (key initial : String) :
    lsInv (lsMount store key initial) := by
  refine ⟨rfl, ?_⟩
  simp [lsMount, lsSetItem, lsLookup]

theorem lsStep_inv (s : LSState) (k d : String) (hs : lsInv s) :
    lsInv (lsStep s k d) := by
  unfold lsStep
  split
  · rename_i heq
    have h1 : s.key = k ∧ s.data = d := by
      rw [hs.1] at heq
      exact ⟨congrArg Prod.fst (Option.some.inj heq), congrArg Prod.snd (Option.some.inj heq)⟩
    refine ⟨?_, ?_⟩
    · show s.prevDeps = some (k, d)
      rw [hs.1, h1.1, h1.2]
    · show lsLookup s.store k = some d
      rw [← h1.1, ← h1.2]
      exact hs.2
  · refine ⟨rfl, ?_⟩
    simp [lsSetItem, lsLookup]

theorem lsFoldl_inv (evs : List (String × String)) (s : LSState) (hs : lsInv s) :
    lsInv (evs.foldl (fun s e => lsStep s e.1 e.2) s) := by
  induction evs generalizing s with
  | nil => exact hs
  | cons e evs ih => exact ih _ (lsStep_inv s e.1 e.2 hs)

theorem lsRun_inv (store : List (String × String)) (key initial : String)
    (evs : List (String × String)) : lsInv (lsRun store key initial evs) :=
  lsFoldl_inv evs _ (lsMount_inv store key initial)

theorem tElapse_none (s : TimeoutState) (n : Nat) (h : s.timer = none) :
    (tElapse s n).fired = s.fired ∧ (tElapse s n).timer = none := by
  unfold tElapse
  rw [h]
  exact ⟨rfl, rfl⟩

theorem tNoReset_cons (e : TEvent) (evs : List TEvent) :
    tNoReset (e :: evs)
      = ((match e with
          | TEvent.callReset => false
          | TEvent.changeDelay _ => false
          | _ => true) && tNoReset evs) := rfl

theorem tRun_noReset_noFire (evs : List TEvent) (s : TimeoutState)
    (hT : s.timer = none) (hE : tNoReset evs = true) :
    (tRun s evs).fired = s.fired ∧ (tRun s evs).timer = none := by
  induction evs generalizing s with
  | nil => exact ⟨rfl, hT⟩
  | cons e evs ih =>
    rw [tNoReset_cons, Bool.and_eq_true] at hE
    cases e with
    | elapse n =>
      have h1 := tElapse_none s n hT
      have h2 := ih (tElapse s n) h1.2 hE.2
      exact ⟨by rw [show tRun s (TEvent.elapse n :: evs) = tRun (tElapse s n) evs from rfl,
        h2.1, h1.1], by rw [show tRun s (TEvent.elapse n :: evs) = tRun (tElapse s n) evs from rfl, h2.2]⟩
    | callClear => exact ih (tClear s) rfl hE.2
    | callReset => exact absurd hE.1 (by simp)
    | changeDelay d => exact absurd hE.1 (by simp)
    | unmount => exact ih (tClear s) rfl hE.2

theorem dNoChange_cons (deps : List Nat) (e : DEvent) (evs : List DEvent) :
    dNoChange deps (e :: evs)
      = ((match e with
          | DEvent.render d => decide (d = deps)
          | _ => true) && dNoChange deps evs) := rfl

theorem dRun_noChange_noFire (evs : List DEvent) (s : DelayState) (deps : List Nat)
    (hT : s.ts.timer = none) (hD : s.prevDeps = some deps)
    (hE : dNoChange deps evs = true) :
    (dRun s evs).ts.fired = s.ts.fired ∧ (dRun s evs).ts.timer = none := by
  induction evs generalizing s with
  | nil => exact ⟨rfl, hT⟩
  | cons e evs ih =>
    rw [dNoChange_cons, Bool.and_eq_true] at hE
    cases e with
    | render d =>
      have hd : d = deps := of_decide_eq_true hE.1
      have hcond : s.prevDeps = some d := by rw [hD, hd]
      have hstep : dStep s (DEvent.render d) = { s with prevDeps := some d } := by
        simp only [dStep]
        rw [if_pos hcond]
      have := ih { s with prevDeps := some d } hT (by rw [hd]) hE.2
      rw [show dRun s (DEvent.render d :: evs) = dRun (dStep s (DEvent.render d)) evs from rfl, hstep]
      exact this
    | elapse n =>
      have h1 := tElapse_none s.ts n hT
      have := ih { s with ts := tElapse s.ts n } h1.2 hD hE.2
      exact ⟨by rw [show dRun s (DEvent.elapse n :: evs) =
          dRun { s with ts := tElapse s.ts n } evs from rfl, this.1, h1.1],
        by rw [show dRun s (DEvent.elapse n :: evs) =
          dRun { s with ts := tElapse s.ts n } evs from rfl, this.2]⟩
    | unmount => exact ih { s with ts := tClear s.ts } rfl hD hE.2

theorem countChanges_cons (a b : List Nat) (rest : List (List Nat)) :
    countChanges (a :: b :: rest)
      = (if a = b then 0 else 1) + countChanges (b :: rest) := rfl

theorem uFoldl_calls (rest : List (List Nat)) (d : List Nat) (c : Nat) :
    (rest.foldl uStep { isFirstRender := false, prevDeps := some d, calls := c }).calls
      = c + countChanges (d :: rest) := by
  induction rest generalizing d c with
  | nil => rfl
  | cons e rest ih =>
    by_cases hde : d = e
    · have hstep : uStep { isFirstRender := false, prevDeps := some d, calls := c } e
          = { isFirstRender := false, prevDeps := some e, calls := c } := by
        unfold uStep
        rw [if_pos (by rw [hde])]
      rw [List.foldl_cons, hstep, ih e c, countChanges_cons, if_pos hde]
      omega
    · have hstep : uStep { isFirstRender := false, prevDeps := some d, calls := c } e
          = { isFirstRender := false, prevDeps := some e, calls := c + 1 } := by
        unfold uStep
        rw [if_neg (by simpa using hde), if_neg (by simp)]
      rw [List.foldl_cons, hstep, ih e (c + 1), countChanges_cons, if_neg hde]
      omega

theorem uRun_calls (renders : List (List Nat)) :
    (uRun renders).calls = countChanges renders := by
  cases renders with
  | nil => rfl
  | cons d rest =>
    have hstep : uStep uInit d = { isFirstRender := false, prevDeps := some d, calls := 0 } := by
      unfold uStep uInit
      rw [if_neg (by simp), if_pos rfl]
    rw [uRun, List.foldl_cons, hstep]
    have := uFoldl_calls rest d 0
    rw [this]
    omega

/-! ## Claim theorems -/

/-- Claim C1 (corrected), counterexample: the claim says the state is
initialized to the stored value whenever one exists under the key, but when
localStorage holds the empty string under the key (a value that exists), the
`local ? local : initial` truthiness check makes the hook initialize to the
initial value `"v"` instead of the stored `""`. -/
theorem useLocalStorage_stored_value_cex :
    lsLookup [("k", "")] "k" = some "" ∧
    (lsMount [("k", "")] "k" "v").data = "v" ∧
    ¬ ((lsMount [("k", "")] "k" "v").data = "") := by
  refine ⟨rfl, rfl, ?_⟩
  intro h
  exact absurd h (by decide)

/-- Claim C1 (amended): useLocalStorage initializes its state to the value
stored in localStorage under the key when a non-empty one exists, and to the
given initial value when the key is absent; and after every render the current
state string is stored in localStorage under the current key (the effect with
deps `[key, data]` writes it back whenever the state or the key changes). -/
theorem useLocalStorage_init_and_writeback
    (store : List (String × String)) (key initial stored : String)
    (evs : List (String × String)) :
    (lsLookup store key = some stored → stored ≠ "" →
      (lsMount store key initial).data = stored) ∧
    (lsLookup store key = none → (lsMount store key initial).data = initial) ∧
    lsLookup (lsRun store key initial evs).store (lsRun store key initial evs).key
      = some (lsRun store key initial evs).data := by
  refine ⟨?_, ?_, (lsRun_inv store key initial evs).2⟩
  · intro h hne
    show lsInitData store key initial = stored
    unfold lsInitData
    rw [h]
    show (if stored = "" then initial else stored) = stored
    rw [if_neg hne]
  · intro h
    show lsInitData store key initial = initial
    unfold lsInitData
    rw [h]

/-- Witness for C1's amended theorem at a concrete store, key, initial value
and event trace. -/
theorem useLocalStorage_init_and_writeback_witness :
    (lsLookup [("k", "stored")] "k" = some "stored") ∧ ("stored" : String) ≠ "" ∧
    (lsMount [("k", "stored")] "k" "init").data = "stored" ∧
    (lsLookup [] "k" = none) ∧ (lsMount [] "k" "init").data = "init" ∧
    lsLookup (lsRun [] "k" "init" [("k", "x"), ("k2", "y")]).store
        (lsRun [] "k" "init" [("k", "x"), ("k2", "y")]).key
      = some (lsRun [] "k" "init" [("k", "x"), ("k2", "y")]).data :=
  ⟨by decide, by decide,
    (useLocalStorage_init_and_writeback [("k", "stored")] "k" "init" "stored" []).1
      (by decide) (by decide),
    by decide,
    (useLocalStorage_init_and_writeback [] "k" "init" "x" []).2.1 (by decide),
    (useLocalStorage_init_and_writeback [] "k" "init" "x" [("k", "x"), ("k2", "y")]).2.2⟩

/-- Claim C2 (confirmed): useArray's `remove(i)` equals
`prev.slice(0, i) ++ prev.slice(i + 1, prev.length - 1)` by definition, and for
every index `i` with `i + 1 < n` this also discards the final element: it is
`eraseIdx i` followed by dropping the last element (so its length is `n - 2`),
and `update(i, v)` is `set i v` followed by dropping the last element. -/
theorem useArray_remove_update_drop_last {α : Type} (l : List α) (i : Nat)
    (v : α) (h : i + 1 < l.length) :
    arrayRemove l i = (l.eraseIdx i).dropLast ∧
    (arrayRemove l i).length = l.length - 2 ∧
    arrayUpdate l i v = (l.set i v).dropLast := by
  refine ⟨arrayRemove_eq l i h, ?_, arrayUpdate_eq l i v h⟩
  rw [arrayRemove_eq l i h, List.length_dropLast, List.length_eraseIdx,
    if_pos (show i < l.length by omega)]
  omega

/-- Witness for C2 at `l = [0, 1, 2, 3]`, `i = 1`, `v = 9`. -/
theorem useArray_remove_update_drop_last_witness :
    (1 + 1 < ([0, 1, 2, 3] : List Nat).length) ∧
    (arrayRemove ([0, 1, 2, 3] : List Nat) 1
        = (([0, 1, 2, 3] : List Nat).eraseIdx 1).dropLast ∧
      (arrayRemove ([0, 1, 2, 3] : List Nat) 1).length = ([0, 1, 2, 3] : List Nat).length - 2 ∧
      arrayUpdate ([0, 1, 2, 3] : List Nat) 1 9
        = (([0, 1, 2, 3] : List Nat).set 1 9).dropLast) :=
  ⟨by decide, useArray_remove_update_drop_last [0, 1, 2, 3] 1 9 (by decide)⟩

/-- Claim C3 (corrected), counterexample: the claim says that with the
dependencies never changing, the callback still fires once, a delay after the
initial mount. In the code, `useEffect(clear, [])` runs after `useTimeout`'s
`set` and after the `reset` effect on mount, so right after mounting (delay 5,
deps `[0]`) no timeout is pending, and letting 10 > 5 time units elapse fires
nothing. -/
theorem useDelay_no_initial_fire_cex :
    (dMount 5 [0]).ts.timer = none ∧
    (dRun (dMount 5 [0]) [DEvent.elapse 10]).ts.fired = 0 := by
  exact ⟨rfl, rfl⟩

/-- Claim C3 (amended): for useDelay, every change in the dependencies restarts
the delay timer (clear then set, scheduling the callback a full delay after the
change); the unmount cleanup clears the timer; the callback does not fire
before the pending delay has elapsed, and fires exactly once when it has; but
if the dependencies never change, the callback never fires — in particular
there is no firing a delay after the initial mount, because the mount-time
`useEffect(clear, [])` clears the initially set timer. -/
theorem useDelay_restart_and_no_initial_fire
    (delay : Nat) (deps deps' : List Nat) (evs : List DEvent) (s : DelayState)
    (n t : Nat) :
    (dMount delay deps).ts.timer = none ∧
    (dNoChange deps evs = true → (dRun (dMount delay deps) evs).ts.fired = 0) ∧
    (s.prevDeps = some deps → deps ≠ deps' →
      (dStep s (DEvent.render deps')).ts.timer = some (s.ts.now + s.ts.delay)) ∧
    ((dStep s DEvent.unmount).ts.timer = none) ∧
    (s.ts.timer = some t → s.ts.now + n < t →
      (dStep s (DEvent.elapse n)).ts.fired = s.ts.fired) ∧
    (s.ts.timer = some t → t ≤ s.ts.now + n →
      (dStep s (DEvent.elapse n)).ts.fired = s.ts.fired + 1 ∧
      (dStep s (DEvent.elapse n)).ts.timer = none) := by
  refine ⟨rfl, ?_, ?_, rfl, ?_, ?_⟩
  · intro hE
    exact (dRun_noChange_noFire evs (dMount delay deps) deps rfl rfl hE).1
  · intro hD hne
    have hcond : ¬ (s.prevDeps = some deps') := by
      rw [hD]
      intro hc
      exact hne (Option.some.inj hc)
    show (dStep s (DEvent.render deps')).ts.timer = some (s.ts.now + s.ts.delay)
    simp only [dStep]
    rw [if_neg hcond]
    rfl
  · intro hT hlt
    show (tElapse s.ts n).fired = s.ts.fired
    unfold tElapse
    rw [hT]
    simp only
    rw [if_neg (by omega)]
  · intro hT hle
    constructor
    · show (tElapse s.ts n).fired = s.ts.fired + 1
      unfold tElapse
      rw [hT]
      simp only
      rw [if_pos (by omega)]
    · show (tElapse s.ts n).timer = none
      unfold tElapse
      rw [hT]
      simp only
      rw [if_pos (by omega)]

/-- Witness for C3's amended theorem at delay 5, deps `[0]`, a concrete trace
with unchanged deps, and a concrete pending-timer state. -/
theorem useDelay_restart_and_no_initial_fire_witness :
    (dNoChange [0] [DEvent.render [0], DEvent.elapse 7] = true) ∧
    (dRun (dMount 5 [0]) [DEvent.render [0], DEvent.elapse 7]).ts.fired = 0 ∧
    (dStep { ts := { now := 2, delay := 5, timer := none, fired := 0 }, prevDeps := some [0] }
      (DEvent.render [1])).ts.timer = some 7 ∧
    (dStep { ts := { now := 2, delay := 5, timer := some 7, fired := 0 }, prevDeps := some [1] }
      (DEvent.elapse 1)).ts.fired = 0 ∧
    ((dStep { ts := { now := 2, delay := 5, timer := some 7, fired := 0 }, prevDeps := some [1] }
      (DEvent.elapse 5)).ts.fired = 1 ∧
     (dStep { ts := { now := 2, delay := 5, timer := some 7, fired := 0 }, prevDeps := some [1] }
      (DEvent.elapse 5)).ts.timer = none) :=
  ⟨by decide,
    (useDelay_restart_and_no_initial_fire 5 [0] [1]
      [DEvent.render [0], DEvent.elapse 7]
      { ts := { now := 2, delay := 5, timer := none, fired := 0 }, prevDeps := some [0] }
      1 7).2.1 (by decide),
    (useDelay_restart_and_no_initial_fire 5 [0] [1] []
      { ts := { now := 2, delay := 5, timer := none, fired := 0 }, prevDeps := some [0] }
      1 7).2.2.1 (by decide) (by decide),
    (useDelay_restart_and_no_initial_fire 5 [0] [1] []
      { ts := { now := 2, delay := 5, timer := some 7, fired := 0 }, prevDeps := some [1] }
      1 7).2.2.2.2.1 (by decide) (by decide),
    (useDelay_restart_and_no_initial_fire 5 [0] [1] []
      { ts := { now := 2, delay := 5, timer := some 7, fired := 0 }, prevDeps := some [1] }
      5 7).2.2.2.2.2 (by decide) (by decide)⟩

theorem tMount_eq (delay : Nat) :
    tMount delay = { now := 0, delay := delay, timer := some delay, fired := 0 } := by
  simp [tMount, tSet]

theorem tElapse_some_fire (s : TimeoutState) (n t : Nat) (h : s.timer = some t)
    (hle : t ≤ s.now + n) :
    tElapse s n = { s with now := s.now + n, timer := none, fired := s.fired + 1 } := by
  unfold tElapse
  rw [h]
  simp only
  rw [if_pos hle]

theorem tElapse_some_wait (s : TimeoutState) (n t : Nat) (h : s.timer = some t)
    (hlt : s.now + n < t) :
    tElapse s n = { s with now := s.now + n } := by
  unfold tElapse
  rw [h]
  simp only
  rw [if_neg (by omega)]

/-- Claim C4 (confirmed): useTimeout schedules the callback once, a full delay
after mount; clearing leaves no pending timeout and, as long as neither
`reset` nor a delay change re-sets it, nothing ever fires; `reset` schedules a
full delay from the current time (clear followed by set); a delay change
re-sets the timeout (the effect's cleanup `clear`, then `set` with the new
delay); and the effect's cleanup on unmount clears the pending timeout. -/
theorem useTimeout_schedule_clear_reset
    (delay n d : Nat) (s : TimeoutState) (evs : List TEvent) :
    (tMount delay).timer = some delay ∧
    (delay ≤ n → (tElapse (tMount delay) n).fired = 1 ∧
      (∀ m : Nat, (tElapse (tElapse (tMount delay) n) m).fired = 1)) ∧
    ((tStep s TEvent.callClear).timer = none) ∧
    (tNoReset evs = true → (tRun (tStep s TEvent.callClear) evs).fired = s.fired) ∧
    ((tStep s TEvent.callReset).timer = some (s.now + s.delay)) ∧
    ((tStep s (TEvent.changeDelay d)).timer = some (s.now + d)) ∧
    ((tStep s TEvent.unmount).timer = none) := by
  refine ⟨?_, ?_, rfl, ?_, rfl, rfl, rfl⟩
  · rw [tMount_eq]
  · intro hle
    have hfire : tElapse (tMount delay) n
        = { now := 0 + n, delay := delay, timer := none, fired := 0 + 1 } := by
      rw [tMount_eq, tElapse_some_fire _ n delay rfl (by omega)]
    refine ⟨by rw [hfire], ?_⟩
    intro m
    rw [hfire, (tElapse_none _ m rfl).1]
  · intro hE
    exact (tRun_noReset_noFire evs (tClear s) rfl hE).1

/-- Witness for C4 at delay 5, a concrete pending state and a concrete trace
with no re-setting events. -/
theorem useTimeout_schedule_clear_reset_witness :
    (5 ≤ 7 ∧ (tElapse (tMount 5) 7).fired = 1 ∧
      (∀ m : Nat, (tElapse (tElapse (tMount 5) 7) m).fired = 1)) ∧
    (tNoReset [TEvent.elapse 9, TEvent.callClear, TEvent.unmount] = true ∧
      (tRun (tStep { now := 2, delay := 5, timer := some 4, fired := 1 } TEvent.callClear)
        [TEvent.elapse 9, TEvent.callClear, TEvent.unmount]).fired = 1) :=
  ⟨⟨by decide,
    (useTimeout_schedule_clear_reset 5 7 3
      { now := 2, delay := 5, timer := some 4, fired := 1 } []).2.1 (by decide)⟩,
   ⟨by decide,
    (useTimeout_schedule_clear_reset 5 7 3
      { now := 2, delay := 5, timer := some 4, fired := 1 }
      [TEvent.elapse 9, TEvent.callClear, TEvent.unmount]).2.2.2.1 (by decide)⟩⟩

/-- Claim C5 (confirmed): useUpdateEffect never runs its callback on the first
render, and over any render sequence the callback runs exactly as many times
as there are renders whose dependency array differs from the previous
render's. -/
theorem useUpdateEffect_skip_first_run_on_change :
    (∀ renders : List (List Nat), (uRun renders).calls = countChanges renders) ∧
    (∀ d : List Nat, (uRun [d]).calls = 0) := by
  refine ⟨uRun_calls, ?_⟩
  intro d
  rw [uRun_calls]
  rfl

/-- Claim C6 (confirmed): after a resize event the useWindowSize state is
exactly the record with `width = window.innerWidth` and
`height = window.innerHeight`, and after a mousemove event the useMouse state
is exactly the record with `x = event.clientX` and `y = event.clientY`,
whatever the previous states were. -/
theorem useWindowSize_useMouse_state_shape
    (prevW : WindowSize) (w : BrowserWindow) (prevM : MousePosition)
    (e : MouseEventData) :
    resizeStep prevW w = { width := w.innerWidth, height := w.innerHeight } ∧
    mouseStep prevM e = { x := e.clientX, y := e.clientY } :=
  ⟨rfl, rfl⟩

/-- Claim C7 (confirmed): for useWindowSize (resize), useMouse (mousemove) and
useKeyboard (keydown), running the effect's cleanup right after the effect
removes exactly the listener the effect registered: if the handler was not
already attached, the listener table returns to its previous value, so no
listener added by the helper remains. -/
theorem listener_cleanup_removes_registered (l : List (String × Nat)) (h : Nat) :
    (("resize", h) ∉ l → useWindowSizeCleanup (useWindowSizeEffect l h) h = l) ∧
    (("mousemove", h) ∉ l → useMouseCleanup (useMouseEffect l h) h = l) ∧
    (("keydown", h) ∉ l → useKeyboardCleanup (useKeyboardEffect l h) h = l) :=
  ⟨fun hm => cleanup_removes_added l "resize" h hm,
    fun hm => cleanup_removes_added l "mousemove" h hm,
    fun hm => cleanup_removes_added l "keydown" h hm⟩

/-- Witness for C7 at a one-entry listener table and a fresh handler. -/
theorem listener_cleanup_removes_registered_witness :
    (("resize", 5) ∉ [("click", 0)] ∧
      useWindowSizeCleanup (useWindowSizeEffect [("click", 0)] 5) 5 = [("click", 0)]) ∧
    (("mousemove", 5) ∉ [("click", 0)] ∧
      useMouseCleanup (useMouseEffect [("click", 0)] 5) 5 = [("click", 0)]) ∧
    (("keydown", 5) ∉ [("click", 0)] ∧
      useKeyboardCleanup (useKeyboardEffect [("click", 0)] 5) 5 = [("click", 0)]) :=
  ⟨⟨by decide, (listener_cleanup_removes_registered [("click", 0)] 5).1 (by decide)⟩,
   ⟨by decide, (listener_cleanup_removes_registered [("click", 0)] 5).2.1 (by decide)⟩,
   ⟨by decide, (listener_cleanup_removes_registered [("click", 0)] 5).2.2 (by decide)⟩⟩

/-- Claim C8 (corrected), counterexample: the library does export exactly nine
helpers, but they are not all under twenty source lines (useWindowSize spans
lines 12-36, 25 lines, and useTimeout spans lines 122-149, 28 lines), and they
are not all independent: useDelay's body calls useTimeout. -/
theorem helpers_under_twenty_independent_cex :
    helpers.length = 9 ∧
    ¬ (∀ hd ∈ helpers, hd.lineCount < 20 ∧ hd.callsHelpers = []) := by
  constructor
  · rfl
  · decide

/-- Claim C8 (amended): the repository consists of exactly nine helper
functions; each is under twenty lines of source except useWindowSize (25
lines) and useTimeout (28 lines); and no helper is implemented by calling
another helper except useDelay, which calls useTimeout. -/
theorem helpers_inventory_amended :
    helpers.length = 9 ∧
    (∀ hd ∈ helpers, hd.lineCount < 20 ∨ hd.name = "useWindowSize" ∨
      hd.name = "useTimeout") ∧
    (∀ hd ∈ helpers, hd.callsHelpers = [] ∨
      (hd.name = "useDelay" ∧ hd.callsHelpers = ["useTimeout"])) := by
  decide

/-- Claim C9 (confirmed): when localStorage holds the empty string under the
key, useLocalStorage treats it as absent — the truthiness check makes the
state initialize to the provided initial value — and the mount-time effect
then overwrites the stored empty string with that initial value. -/
theorem useLocalStorage_empty_string_as_absent
    (store : List (String × String)) (key initial : String)
    (h : lsLookup store key = some "") :
    (lsMount store key initial).data = initial ∧
    lsLookup (lsMount store key initial).store key = some initial := by
  have hd : (lsMount store key initial).data = initial := by
    show lsInitData store key initial = initial
    unfold lsInitData
    rw [h]
    show (if ("" : String) = "" then initial else "") = initial
    rw [if_pos rfl]
  have hstore : (lsMount store key initial).store
      = lsSetItem store key ((lsMount store key initial).data) := rfl
  refine ⟨hd, ?_⟩
  rw [hstore, hd]
  simp [lsSetItem, lsLookup]

/-- Witness for C9 at the store holding `""` under `"k"`. -/
theorem useLocalStorage_empty_string_as_absent_witness :
    lsLookup [("k", "")] "k" = some "" ∧
    ((lsMount [("k", "")] "k" "v").data = "v" ∧
      lsLookup (lsMount [("k", "")] "k" "v").store "k" = some "v") :=
  ⟨by decide, useLocalStorage_empty_string_as_absent [("k", "")] "k" "v" (by decide)⟩

/-- Claim C10 (confirmed): useToggle's change function sets the state to any
boolean argument regardless of the previous state, negates the state on a
non-boolean (null) argument, and two consecutive null calls restore the
original state. -/
theorem useToggle_change_semantics :
    (∀ (b prev : Bool), changeToggle (some b) prev = b) ∧
    (∀ prev : Bool, changeToggle none prev = !prev) ∧
    (∀ prev : Bool, changeToggle none (changeToggle none prev) = prev) := by
  decide
